import Mathlib

/-!
# Verification of the magsag agent-execution orchestration core

Shallow embedding of `src/magsag/runners/agent_runner.py`: the
Delegation/Result protocol, the SAG retry-and-evaluation attempt loop
(`invoke_sag` / `invoke_sag_async`), the MAG orchestration (`invoke_mag`),
the concurrency bridge (`_run_async_safely`), the skill runtime
(`SkillRuntime.invoke_async` and `_is_async_callable`), and the
deterministic-mode save/patch/restore discipline of `_prepare_execution`.

Modelling conventions:
* Python dicts whose contents matter are association lists
  `List (String × Value)` over a JSON-like `Value` type; dict update and
  lookup are embedded explicitly.
* External collaborators declared out of scope by the repository
  (evaluator runtime, agent bodies, moderation hooks, the durable runner,
  the registry) are universally quantified environment inputs: a function
  per collaborator call site gives that call's outcome at each attempt.
  An `Except String α` outcome models a Python call that either returns
  or raises with a message (`str(e)`).
* The `ObservabilityLogger` methods (`log`, `metric`, `record_cost`,
  `finalize`) are pure trace events: the embedding records each call in
  an event list, mirroring the source's call sites in order.  The logger
  itself is assumed not to raise.
* The process-wide deterministic flag kept by the external collaborator
  `magsag.runner_determinism` is one boolean of state;
  `get_deterministic_mode` / `set_deterministic_mode` are reads/writes of
  that boolean, threaded explicitly.
* `uuid.uuid4().hex[:8]` is modelled as an environment-supplied string
  (`freshId`), since its value is irrelevant to control flow.
-/

namespace Magsag

/-- JSON-like values, modelling the Python objects stored in `dict`s that
the orchestration code inspects (`str`, numbers, nested dicts/lists,
booleans, `None`). -/
inductive Value where
  | str (s : String)
  | num (n : Int)
  | dict (kvs : List (String × Value))
  | list (vs : List Value)
  | bool (b : Bool)
  | none
deriving Repr

/-- A Python `dict` whose keys are strings, as the orchestration code uses
for payloads, outputs and metrics. -/
abbrev Dict := List (String × Value)

/-- `d.get(k)`: first binding of `k`, if any. -/
def dictGet (d : Dict) (k : String) : Option Value :=
  (d.find? (fun kv => kv.1 = k)).map (fun kv => kv.2)

/-- `d.get(k)` with Python's `None` default (as `plan_snapshot.get(k)` is
used in `_build_success_metrics` / `_build_failure_result`). -/
def pyGet (d : Dict) (k : String) : Value :=
  (dictGet d k).getD Value.none

/-- `d[k] = v`: replace the binding when the key is present, else append,
mirroring `dict.update` on one key. -/
def dictInsert (d : Dict) (k : String) (v : Value) : Dict :=
  if (d.find? (fun kv => kv.1 = k)).isSome then
    d.map (fun kv => if kv.1 = k then (k, v) else kv)
  else
    d ++ [(k, v)]

mutual

/-- Order-preserving text extraction of `_extract_text_for_moderation`'s
inner `extract_recursive`: collect every string leaf of a value. -/
def extractTexts : Value → List String
  | Value.str s => [s]
  | Value.dict kvs => extractTextsDict kvs
  | Value.list vs => extractTextsList vs
  | _ => []

/-- `extract_recursive` over the values of a dict, in insertion order. -/
def extractTextsDict : List (String × Value) → List String
  | [] => []
  | kv :: rest => extractTexts kv.2 ++ extractTextsDict rest

/-- `extract_recursive` over the items of a list. -/
def extractTextsList : List Value → List String
  | [] => []
  | v :: rest => extractTexts v ++ extractTextsList rest

end

/-- `AgentRunner._extract_text_for_moderation` (lines 1072-1105): join all
string leaves of the output dict with single spaces; `' '.join` of an
empty collection is the empty string, matching the `else ''` branch. -/
def extractTextForModeration (output : Dict) : String :=
  String.intercalate " " (extractTextsDict output)

/-- One evaluation outcome as consumed by `_run_pre_evaluations` /
`_run_post_evaluations`: the evaluator slug, whether it passed, and its
fail-open policy (spec §3; fields read at lines 1325-1335 and 1388-1398). -/
structure EvalOutcome where
  eval_slug : String
  passed : Bool
  fail_open : Bool
deriving Repr, DecidableEq

/-- Shared core of `_run_pre_evaluations` (lines 1282-1335) and
`_run_post_evaluations` (lines 1337-1398): given the outcomes returned by
`EvalRuntime.evaluate_all`, return the message of the `RuntimeError`
raised when some failing outcome is fail-closed, else `none`.
`hook` is the message prefix (`"Pre-evaluation"` / `"Post-evaluation"`). -/
def failClosedError (hook : String) (results : List EvalOutcome) : Option String :=
  if results.isEmpty then none
  else
    let critical := results.filter (fun r => !r.passed)
    if critical.isEmpty then none
    else
      let failClosed := critical.filter (fun r => !r.fail_open)
      if failClosed.isEmpty then none
      else
        some (hook ++ " failed (fail-closed): "
          ++ String.intercalate ", " (failClosed.map (fun r => r.eval_slug)))

/-- Observable effects of one invocation, in call order.  `logEv`,
`metricEv`, `recordCost` and `finalize` are the `ObservabilityLogger`
calls; `sleep` is the constant backoff wait; `preEvalRun`, `executeBody`,
`moderationRun` and `postEvalRun` mark the collaborator calls of one
attempt; `setDetFlag` is a write of the process-wide deterministic flag. -/
inductive Event where
  | logEv (name : String)
  | metricEv (key : String)
  | recordCost (step : String)
  | finalize
  | sleep (ms : Nat)
  | preEvalRun (attempt : Nat)
  | executeBody (attempt : Nat)
  | moderationRun (attempt : Nat)
  | postEvalRun (attempt : Nat)
  | setDetFlag (b : Bool)
deriving Repr, DecidableEq

/-- Number of `finalize` calls in a trace. -/
def countFinalize (tr : List Event) : Nat :=
  (tr.filter (fun e => e = Event.finalize)).length

/-- Log events emitted by `_run_pre_evaluations`: `obs.log("pre_eval")`
when there are results, plus `obs.log("pre_eval_failure")` when some
outcome failed. -/
def preEvalLogs (rs : List EvalOutcome) : List Event :=
  if rs.isEmpty then []
  else
    [Event.logEv "pre_eval"]
      ++ (if (rs.filter (fun r => !r.passed)).isEmpty then []
          else [Event.logEv "pre_eval_failure"])

/-- Log events emitted by `_run_post_evaluations` (same shape with the
`post_eval` event names). -/
def postEvalLogs (rs : List EvalOutcome) : List Event :=
  if rs.isEmpty then []
  else
    [Event.logEv "post_eval"]
      ++ (if (rs.filter (fun r => !r.passed)).isEmpty then []
          else [Event.logEv "post_eval_failure"])

/-- `Result` (lines 103-112): the message contract a SAG invocation
returns.  `metrics` is the dict built by `_build_success_metrics` or
`_build_failure_result`; `error` is `None` on success. -/
structure ResultR where
  task_id : String
  status : String
  output : Dict
  metrics : Dict
  error : Option String
deriving Repr

/-- `metrics.update({...})` merge of `_build_success_metrics` /
`_build_failure_result`: when the observer's `llm_plan_snapshot` is
truthy (non-empty dict), seven plan keys are written over the base
metrics, the last being the whole snapshot under `"llm_plan"`. -/
def mergePlanMetrics (metrics : Dict) (planSnapshot : Dict) : Dict :=
  if planSnapshot.isEmpty then metrics
  else
    let m := dictInsert metrics "provider" (pyGet planSnapshot "provider")
    let m := dictInsert m "model" (pyGet planSnapshot "model")
    let m := dictInsert m "use_batch" (pyGet planSnapshot "use_batch")
    let m := dictInsert m "use_cache" (pyGet planSnapshot "use_cache")
    let m := dictInsert m "structured_output" (pyGet planSnapshot "structured_output")
    let m := dictInsert m "moderation" (pyGet planSnapshot "moderation")
    dictInsert m "llm_plan" (Value.dict planSnapshot)

/-- `AgentRunner._build_success_metrics` (lines 1537-1574).  The observer
records only placeholder costs (`record_cost(0.0, 0, ...)`), so
`cost_usd` and `tokens` are 0.  `attempt` is the 0-indexed loop counter;
the dict stores `attempt + 1`. -/
def buildSuccessMetrics (planSnapshot : Dict) (durationMs attempt : Nat) : Dict :=
  mergePlanMetrics
    [("duration_ms", Value.num durationMs),
     ("attempts", Value.num (attempt + 1)),
     ("cost_usd", Value.num 0),
     ("tokens", Value.num 0)]
    planSnapshot

/-- Python `str(last_error)` where `last_error : Optional[Exception]`:
the exception's message, or the string `"None"`. -/
def pyStrOpt : Option String → String
  | some s => s
  | Option.none => "None"

/-- The `Result` built by `AgentRunner._build_failure_result`
(lines 1576-1636) once all attempts are exhausted. -/
def failureResult (planSnapshot : Dict) (taskId : String)
    (lastError : Option String) (maxAttempts : Nat) : ResultR :=
  { task_id := taskId
    status := "failure"
    output := []
    metrics := mergePlanMetrics
      [("attempts", Value.num maxAttempts),
       ("cost_usd", Value.num 0),
       ("tokens", Value.num 0)]
      planSnapshot
    error := some (pyStrOpt lastError) }

/-- Effects of `_build_failure_result`: placeholder cost, an `error` log,
and the (single) `finalize` of the exhaustion path. -/
def failureTrace (taskId : String) : List Event :=
  [Event.recordCost taskId, Event.logEv "error", Event.finalize]

/-- Failure knobs of `_prepare_execution` (lines 850-945): whether
`registry.load_agent` raises (unknown agent, before the deterministic
section), whether `apply_deterministic_settings` raises (inside the
deterministic section), and whether plan resolution
(`router.get_plan` / LLM-plan lookup) raises afterwards.  When none of
these fire, `_prepare_execution` returns an `_ExecutionContext` whose
`ObservabilityLogger` was just created. -/
structure PrepEnv where
  loadAgentFails : Bool
  applySettingsFails : Bool
  planFails : Bool
deriving Repr, DecidableEq

/-- `_prepare_execution` succeeds, i.e. an `_ExecutionContext` (and its
bound logger) is created: loading and plan resolution succeed, and the
deterministic settings application (run only when deterministic mode is
requested) succeeds. -/
def prepSucceeds (p : PrepEnv) (det : Bool) : Prop :=
  p.loadAgentFails = false ∧ p.planFails = false ∧
    (det = true → p.applySettingsFails = false)

instance (p : PrepEnv) (det : Bool) : Decidable (prepSucceeds p det) := by
  unfold prepSucceeds; infer_instance

/-- The deterministic-mode state visible to one invocation: the
process-wide flag held by `magsag.runner_determinism`, and the
`"_previous_deterministic_mode"` entry that `_prepare_execution` may
write into the caller's context dict. -/
structure DetState where
  flag : Bool
  prevKey : Option Bool
deriving Repr, DecidableEq

/-- `AgentRunner._prepare_execution` (lines 850-945), reduced to the
state and control flow the claims observe.  When
`context.get("deterministic")` is truthy: save the flag; if it was
false, set it true and stash `False` under
`"_previous_deterministic_mode"` in the context; if applying the
deterministic provider settings then raises, restore the flag at once
and re-raise.  Afterwards plan resolution runs and the observability
logger is created.  Returns the raised message (`.error`) or `.ok ()`,
the updated state, and the flag writes performed. -/
def prepareExecution (p : PrepEnv) (deterministic : Bool) (st : DetState) :
    Except String Unit × DetState × List Event :=
  if p.loadAgentFails then
    (Except.error "load_agent failed", st, [])
  else
    if deterministic then
      let previous := st.flag
      let st1 : DetState :=
        if !previous then { flag := true, prevKey := some previous } else st
      let tr1 : List Event :=
        if !previous then [Event.setDetFlag true] else []
      if p.applySettingsFails then
        let st2 : DetState := if !previous then { st1 with flag := false } else st1
        let tr2 : List Event := if !previous then [Event.setDetFlag false] else []
        (Except.error "apply_deterministic_settings failed", st2, tr1 ++ tr2)
      else if p.planFails then
        (Except.error "get_plan failed", st1, tr1)
      else
        (Except.ok (), st1, tr1)
    else if p.planFails then
      (Except.error "get_plan failed", st, [])
    else
      (Except.ok (), st, [])

/-- The `finally:` block shared by `invoke_mag`, `invoke_sag` and
`invoke_sag_async`: when the context carries
`"_previous_deterministic_mode"`, write that stashed value back to the
process-wide flag.  (The key is only ever written when
`context["deterministic"]` was truthy, in which case the context dict is
non-empty, so the source's `if context and ... in context` reduces to
the key test.) -/
def restoreDet (st : DetState) : DetState × List Event :=
  match st.prevKey with
  | some prev => ({ st with flag := prev }, [Event.setDetFlag prev])
  | Option.none => (st, [])

/-- Behaviour of the collaborators around one SAG delegation, indexed by
the 0-based attempt number where the source calls them per attempt:
`preEvals`/`postEvals` are the outcome lists `EvalRuntime.evaluate_all`
returns, `execute` is the agent body (its output dict and duration, or
the raised exception's message), and `checkModelOutput` is the
moderation hook on the extracted output text (`some reason` models the
`ValueError` raised on a block; a disabled hook is `none`).
`maxAttempts` / `backoffMs` are the agent's resolved retry policy
(`retry_policy.get("max_attempts", 1)` / `.get("backoff_ms", 0)`), and
`planSnapshot` is the observer's `llm_plan_snapshot`. -/
structure SagEnv where
  prep : PrepEnv
  maxAttempts : Nat
  backoffMs : Nat
  preEvals : Nat → List EvalOutcome
  execute : Nat → Except String (Dict × Nat)
  checkModelOutput : Nat → String → Option String
  postEvals : Nat → Dict → List EvalOutcome
  planSnapshot : Dict
  freshId : String

/-- The `if output_text: _check_moderation_model_output(...)` step: the
hook only runs when the extracted text is non-empty, and `some msg`
models the `ValueError` it raises on a block. -/
def modOutcome (env : SagEnv) (attempt : Nat) (output : Dict) : Option String :=
  if extractTextForModeration output ≠ "" then
    env.checkModelOutput attempt (extractTextForModeration output)
  else Option.none

/-- Events of the moderation step (the hook call happens only on
non-empty extracted text). -/
def modTrace (output : Dict) (attempt : Nat) : List Event :=
  if extractTextForModeration output ≠ "" then [Event.moderationRun attempt]
  else []

/-- The body of one iteration of the attempt loop of `invoke_sag`
(lines 1800-1845) / `invoke_sag_async` (lines 1681-1726), up to the
point where the success `Result` is assembled: pre-evaluations, agent
execution, model-output moderation, post-evaluations.  `.error msg` is
the exception the iteration's `except Exception` clause catches;
`.ok (output, duration)` reaches the success path. -/
def sagAttempt (env : SagEnv) (attempt : Nat) :
    Except String (Dict × Nat) × List Event :=
  let preResults := env.preEvals attempt
  let preTr := Event.preEvalRun attempt :: preEvalLogs preResults
  match failClosedError "Pre-evaluation" preResults with
  | some msg => (Except.error msg, preTr)
  | Option.none =>
    match env.execute attempt with
    | Except.error msg => (Except.error msg, preTr ++ [Event.executeBody attempt])
    | Except.ok (output, duration) =>
      let trSoFar := preTr ++ [Event.executeBody attempt] ++ modTrace output attempt
      match modOutcome env attempt output with
      | some msg => (Except.error msg, trSoFar)
      | Option.none =>
        let postResults := env.postEvals attempt output
        let trPost := trSoFar ++ Event.postEvalRun attempt :: postEvalLogs postResults
        match failClosedError "Post-evaluation" postResults with
        | some msg => (Except.error msg, trPost)
        | Option.none => (Except.ok (output, duration), trPost)

/-- Effects of the success tail of one attempt:
`obs.metric("duration_ms", ...)`, the placeholder cost, the `"end"` log
and the single `finalize` before the success `Result` is returned. -/
def successTrace (taskId : String) : List Event :=
  [Event.metricEv "duration_ms", Event.recordCost taskId,
   Event.logEv "end", Event.finalize]

/-- The backoff wait after a caught attempt exception: sleep exactly
`backoff_ms` when more attempts remain and `backoff_ms > 0`
(`if attempt < max_attempts - 1 and backoff_ms > 0`). -/
def backoffTrace (env : SagEnv) (attempt : Nat) : List Event :=
  if attempt < env.maxAttempts - 1 && env.backoffMs > 0 then
    [Event.sleep env.backoffMs]
  else []

/-- The `for attempt in range(max_attempts)` loop of `invoke_sag` /
`invoke_sag_async`.  `remaining` counts the iterations still to run
(initially `max_attempts`), `attempt` is the current 0-based index, and
`lastError` is the `last_error` variable.  On a caught exception the
loop logs a `"retry"` event and sleeps per `backoffTrace`; on
exhaustion it falls through to `_build_failure_result`. -/
def sagLoop (env : SagEnv) (taskId : String) (attempt remaining : Nat)
    (lastError : Option String) : ResultR × List Event :=
  match remaining with
  | 0 => (failureResult env.planSnapshot taskId lastError env.maxAttempts,
          failureTrace taskId)
  | r + 1 =>
    let step := sagAttempt env attempt
    match step.1 with
    | Except.ok (output, duration) =>
      ({ task_id := taskId
         status := "success"
         output := output
         metrics := buildSuccessMetrics env.planSnapshot duration attempt
         error := Option.none },
       step.2 ++ successTrace taskId)
    | Except.error msg =>
      let retryTr := step.2 ++ [Event.logEv "retry"] ++ backoffTrace env attempt
      let rest := sagLoop env taskId (attempt + 1) r (some msg)
      (rest.1, retryTr ++ rest.2)

/-- The `Delegation` fields the orchestration reads: `task_id`, the
target slug, and the correlation context's `run_id` /
`deterministic` entries (the input payload is folded into
`SagEnv.execute` / `SagEnv.preEvals`). -/
structure DelegationM where
  task_id : String
  sag_id : String
  ctxRunId : Option String
  deterministic : Bool
deriving Repr, DecidableEq

/-- Everything one SAG invocation yields: the run id it used, the
returned `Result` (`.error` when the invocation re-raises out of the
outer `except`), the effect trace, and the final value of the
process-wide deterministic flag. -/
structure SagInvocation where
  runId : String
  result : Except String ResultR
  trace : List Event
  finalDetFlag : Bool

/-- `AgentRunner.invoke_sag` (lines 1758-1875); `invoke_sag_async`
(lines 1638-1756) is the same logic modulo sync/async plumbing (the
model covers both).  A fresh `"sag-"` run id is always generated
(line 1774 / 1655) — the delegation context's `run_id` is never read.
If `_prepare_execution` raises, `exec_ctx` is `None`, the outer
`except` re-raises without touching a logger, and the `finally` block
restores the deterministic flag.  Otherwise the start event is logged
and the attempt loop runs; every outcome of the loop is returned as a
`Result`, and the `finally` restore runs on the way out. -/
def invokeSagModel (env : SagEnv) (d : DelegationM) (initFlag : Bool) :
    SagInvocation :=
  let runId := "sag-" ++ env.freshId
  match prepareExecution env.prep d.deterministic { flag := initFlag, prevKey := Option.none } with
  | (Except.error msg, st, tr) =>
    let fin := restoreDet st
    { runId := runId
      result := Except.error msg
      trace := tr ++ fin.2
      finalDetFlag := fin.1.flag }
  | (Except.ok _, st, tr) =>
    let loop := sagLoop env d.task_id 0 env.maxAttempts Option.none
    let fin := restoreDet st
    { runId := runId
      result := Except.ok loop.1
      trace := tr ++ Event.logEv "start" :: loop.2 ++ fin.2
      finalDetFlag := fin.1.flag }

/-- `AgentRunner.invoke_sag_async` (lines 1638-1756): identical retry
and evaluation logic to `invoke_sag`, differing only in awaiting the
agent body and `asyncio.sleep` in place of `time.sleep`. -/
def invokeSagAsyncModel (env : SagEnv) (d : DelegationM) (initFlag : Bool) :
    SagInvocation :=
  invokeSagModel env d initFlag

/-- What `self.durable_runner.resume(run_id)` yields inside `invoke_mag`
(lines 1158-1178): the call raises (caught and logged, `resumed_state`
stays `None`), returns `None`, returns a state dict without a
`"result"` key, or returns a state dict whose `"result"` entry is a
stored output. -/
inductive ResumeBehavior where
  | raises
  | noState
  | stateNoResult
  | stateWithResult (r : Dict)

/-- Collaborator behaviour around one `invoke_mag` call.  `durable` is
the constructor invariant `durable_runner is not None and
durable_enabled` (both are set together, lines 407-412).  `ingress`,
`checkModelOutput` and `egress` are the moderation hooks (`some msg`
models the `ValueError` raised on a block; disabled hooks are `none`).
`executeMag` is the agent body run through `_execute_mag`.
`checkpointFails` covers the durable checkpoint call, whose failure is
logged and swallowed. -/
structure MagEnv where
  prep : PrepEnv
  durable : Bool
  resume : ResumeBehavior
  ingress : Option String
  executeMag : Except String (Dict × Nat)
  checkModelOutput : String → Option String
  egress : Dict → Option String
  checkpointFails : Bool
  freshId : String

/-- Outcome of one `invoke_mag` call: the run id used, the output map
(or the re-raised exception's message), the effect trace, and the final
deterministic flag. -/
structure MagInvocation where
  runId : String
  result : Except String Dict
  trace : List Event
  finalDetFlag : Bool

/-- The `except Exception` + `finally` tail of `invoke_mag`:
`_handle_mag_error` (lines 1107-1126) logs the error, records a
placeholder cost and finalizes — but only when an `_ExecutionContext`
exists — then the exception is re-raised and the deterministic flag
restored. -/
def magErrorExit (runId msg : String) (preTr : List Event) (st : DetState)
    (ctxCreated : Bool) : MagInvocation :=
  let handlerTr : List Event :=
    if ctxCreated then [Event.logEv "error", Event.recordCost "mag", Event.finalize]
    else []
  let fin := restoreDet st
  { runId := runId
    result := Except.error msg
    trace := preTr ++ handlerTr ++ fin.2
    finalDetFlag := fin.1.flag }

/-- `AgentRunner.invoke_mag` (lines 1128-1239).  The run id is reused
from `context["run_id"]` when truthy, else generated as
`"mag-" ++ fresh`.  After `_prepare_execution`, durable resume may
short-circuit (log `"resume"`, finalize, return the stored result);
otherwise the start event, ingress moderation, the agent body,
model-output and egress moderation, `_finalize_mag_success`
(lines 1045-1070) and the best-effort durable checkpoint run in order.
Any exception goes through `_handle_mag_error` and is re-raised; the
`finally` block restores the deterministic flag on every path. -/
def invokeMagModel (env : MagEnv) (ctxRunId : Option String)
    (deterministic : Bool) (initFlag : Bool) : MagInvocation :=
  let runId := match ctxRunId with
    | some r => if r = "" then "mag-" ++ env.freshId else r
    | Option.none => "mag-" ++ env.freshId
  match prepareExecution env.prep deterministic { flag := initFlag, prevKey := Option.none } with
  | (Except.error msg, st, tr) =>
    magErrorExit runId msg tr st false
  | (Except.ok _, st, tr) =>
    let resumed : Option Dict :=
      if env.durable then
        match env.resume with
        | ResumeBehavior.stateWithResult r => some r
        | _ => Option.none
      else Option.none
    match resumed with
    | some r =>
      let fin := restoreDet st
      { runId := runId
        result := Except.ok r
        trace := tr ++ [Event.logEv "resume", Event.finalize] ++ fin.2
        finalDetFlag := fin.1.flag }
    | Option.none =>
      let startTr := tr ++ [Event.logEv "start"]
      match env.ingress with
      | some msg => magErrorExit runId msg startTr st true
      | Option.none =>
        match env.executeMag with
        | Except.error msg =>
          magErrorExit runId msg (startTr ++ [Event.executeBody 0]) st true
        | Except.ok (output, _duration) =>
          let bodyTr := startTr ++ [Event.executeBody 0]
          let modErr : Option String :=
            if extractTextForModeration output ≠ "" then
              env.checkModelOutput (extractTextForModeration output)
            else Option.none
          match modErr with
          | some msg => magErrorExit runId msg (bodyTr ++ modTrace output 0) st true
          | Option.none =>
            match env.egress output with
            | some msg => magErrorExit runId msg (bodyTr ++ modTrace output 0) st true
            | Option.none =>
              let fin := restoreDet st
              { runId := runId
                result := Except.ok output
                trace := bodyTr ++ modTrace output 0
                  ++ [Event.metricEv "duration_ms", Event.recordCost "mag",
                      Event.logEv "end", Event.finalize] ++ fin.2
                finalDetFlag := fin.1.flag }

/-- Python exceptions by type, as far as the concurrency bridge's
`except RuntimeError` clause distinguishes them. -/
inductive PyExc where
  | runtimeError (msg : String)
  | valueError (msg : String)
  | otherError (msg : String)
deriving Repr, DecidableEq

/-- `isinstance(e, RuntimeError)`. -/
def PyExc.isRuntimeError : PyExc → Bool
  | PyExc.runtimeError _ => true
  | _ => false

/-- `AgentRunner._run_async_safely` (lines 1457-1507).  `loopRunning` is
whether `asyncio.get_running_loop()` succeeds at the call site; `coro`
is the coroutine's one-shot behaviour (its result or the exception it
raises).

No running loop: `get_running_loop` raises `RuntimeError`, landing in
the `except RuntimeError` handler, which calls `asyncio.run(coro)`
directly — the coroutine's behaviour is the caller's outcome.

Running loop: the worker thread runs `asyncio.run(coro)` in a private
loop (consuming the coroutine) and the captured exception is re-raised
after `thread.join()` — but that `raise` sits inside the same `try`
block as `get_running_loop`, so a captured `RuntimeError` is caught by
`except RuntimeError:`, whose handler then calls `asyncio.run(coro)`
from the thread whose loop is still running; `asyncio.run` immediately
raises `RuntimeError("asyncio.run() cannot be called from a running
event loop")`, which is what the caller sees instead of the
coroutine's own error. -/
def runAsyncSafely (loopRunning : Bool) (coro : Except PyExc Dict) :
    Except PyExc Dict :=
  if loopRunning then
    match coro with
    | Except.ok v => Except.ok v
    | Except.error e =>
      if e.isRuntimeError then
        Except.error (PyExc.runtimeError
          "asyncio.run() cannot be called from a running event loop")
      else Except.error e
  else
    coro

/-- The shapes of resolved entrypoints `_is_async_callable`
(lines 61-90) distinguishes: an `async def` function, a plain `def`
function, a `functools.partial` wrapper, and a callable object whose
`__call__` may or may not be a coroutine function. -/
inductive PyCallable where
  | asyncFn
  | syncFn
  | partialOf (f : PyCallable)
  | objWithCall (asyncCall : Bool)
deriving Repr, DecidableEq

/-- `_is_async_callable` (lines 61-90): `inspect.iscoroutinefunction`
on the callable itself, unwrap `functools.partial`, else inspect the
`__call__` method; a plain synchronous function fails every check. -/
def isAsyncCallable : PyCallable → Bool
  | PyCallable.asyncFn => true
  | PyCallable.partialOf f => isAsyncCallable f
  | PyCallable.objWithCall asyncCall => asyncCall
  | PyCallable.syncFn => false

/-- Configuration one `SkillRuntime.invoke_async` call sees: the
resolved entrypoint, whether its signature declares an `mcp` parameter,
whether the skill declares an `mcp:` permission, the runtime's MCP
flags, and the skill body's behaviour if it were invoked. -/
structure SkillEnv where
  entrypoint : PyCallable
  hasMcpParam : Bool
  hasMcpPermission : Bool
  mcpEnabled : Bool
  mcpStartOk : Bool
  runtimeOk : Bool
  body : Except String Dict

/-- Outcome of `invoke_async`: the returned output or raised message,
and whether the entrypoint was actually called. -/
structure SkillInvocation where
  result : Except String Dict
  invoked : Bool
deriving Repr

/-- `SkillRuntime.invoke_async` (lines 233-325).  MCP setup runs first
when the signature declares an `mcp` parameter: a skill that both
declares the parameter and holds an `mcp:` permission hard-fails when
MCP is disabled, fails to start, or yields no runtime; an optional
parameter is best-effort.  Then the `try` block rejects a
non-asynchronous entrypoint with `ValueError` before any call; only an
asynchronous entrypoint is awaited. -/
def invokeSkillAsync (env : SkillEnv) : SkillInvocation :=
  let requiresMcp := env.hasMcpParam && env.hasMcpPermission
  if requiresMcp && !env.mcpEnabled then
    { result := Except.error "requires MCP runtime, but MCP is disabled in settings."
      invoked := false }
  else if requiresMcp && !env.mcpStartOk then
    { result := Except.error "requires MCP runtime, but MCP servers failed to start."
      invoked := false }
  else if requiresMcp && !env.runtimeOk then
    { result := Except.error
        "requires MCP runtime, but no MCP permissions were granted or the runtime could not be initialized."
      invoked := false }
  else if !isAsyncCallable env.entrypoint then
    { result := Except.error "must be async. Synchronous skills are not supported."
      invoked := false }
  else
    { result := env.body, invoked := true }

end Magsag

namespace Magsag

theorem dictGet_map_replace (d : Dict) (k k' : String) (v : Value) (h : k ≠ k') :
    dictGet (d.map (fun kv => if kv.1 = k' then (k', v) else kv)) k = dictGet d k := by
  induction d with
  | nil => rfl
  | cons kv rest ih =>
    by_cases hk : kv.1 = k'
    · simp only [List.map_cons, if_pos hk, dictGet]
      rw [List.find?_cons_of_neg _ (by simp [Ne.symm h]),
        List.find?_cons_of_neg _ (by simp [hk, Ne.symm h])]
      exact ih
    · simp only [List.map_cons, if_neg hk, dictGet]
      by_cases hkk : kv.1 = k
      · rw [List.find?_cons_of_pos _ (by simp [hkk]), List.find?_cons_of_pos _ (by simp [hkk])]
      · rw [List.find?_cons_of_neg _ (by simp [hkk]), List.find?_cons_of_neg _ (by simp [hkk])]
        exact ih

theorem dictGet_append_ne (d : Dict) (k k' : String) (v : Value) (h : k ≠ k') :
    dictGet (d ++ [(k', v)]) k = dictGet d k := by
  induction d with
  | nil => simp [dictGet, Ne.symm h]
  | cons kv rest ih =>
    by_cases hkk : kv.1 = k
    · simp only [List.cons_append, dictGet]
      rw [List.find?_cons_of_pos _ (by simp [hkk]), List.find?_cons_of_pos _ (by simp [hkk])]
    · simp only [List.cons_append, dictGet] at *
      rw [List.find?_cons_of_neg _ (by simp [hkk]), List.find?_cons_of_neg _ (by simp [hkk])]
      exact ih

theorem dictGet_insert_ne (d : Dict) (k k' : String) (v : Value) (h : k ≠ k') :
    dictGet (dictInsert d k' v) k = dictGet d k := by
  unfold dictInsert
  split
  · exact dictGet_map_replace d k k' v h
  · exact dictGet_append_ne d k k' v h

theorem dictGet_mergePlan_attempts (base : Dict) (snap : Dict) :
    dictGet (mergePlanMetrics base snap) "attempts" = dictGet base "attempts" := by
  unfold mergePlanMetrics
  split
  · rfl
  · rw [dictGet_insert_ne _ _ _ _ (by decide), dictGet_insert_ne _ _ _ _ (by decide),
      dictGet_insert_ne _ _ _ _ (by decide), dictGet_insert_ne _ _ _ _ (by decide),
      dictGet_insert_ne _ _ _ _ (by decide), dictGet_insert_ne _ _ _ _ (by decide),
      dictGet_insert_ne _ _ _ _ (by decide)]

theorem failureResult_attempts (snap : Dict) (t : String) (e : Option String) (m : Nat) :
    dictGet (failureResult snap t e m).metrics "attempts" = some (Value.num m) := by
  unfold failureResult
  rw [dictGet_mergePlan_attempts]
  rfl

theorem successMetrics_attempts (snap : Dict) (dur att : Nat) :
    dictGet (buildSuccessMetrics snap dur att) "attempts" = some (Value.num (att + 1)) := by
  unfold buildSuccessMetrics
  rw [dictGet_mergePlan_attempts]
  simp [dictGet, List.find?]

theorem sagAttempt_preFail (env : SagEnv) (i : Nat) (msg : String)
    (h : failClosedError "Pre-evaluation" (env.preEvals i) = some msg) :
    sagAttempt env i = (Except.error msg, Event.preEvalRun i :: preEvalLogs (env.preEvals i)) := by
  simp only [sagAttempt, h]

theorem sagAttempt_execFail (env : SagEnv) (i : Nat) (msg : String)
    (hPre : failClosedError "Pre-evaluation" (env.preEvals i) = Option.none)
    (hExec : env.execute i = Except.error msg) :
    (sagAttempt env i).1 = Except.error msg := by
  simp only [sagAttempt, hPre, hExec]

theorem sagAttempt_success (env : SagEnv) (i : Nat) (out : Dict) (dur : Nat)
    (hPre : failClosedError "Pre-evaluation" (env.preEvals i) = Option.none)
    (hExec : env.execute i = Except.ok (out, dur))
    (hMod : modOutcome env i out = Option.none)
    (hPost : failClosedError "Post-evaluation" (env.postEvals i out) = Option.none) :
    (sagAttempt env i).1 = Except.ok (out, dur) := by
  simp only [sagAttempt, hPre, hExec, hMod, hPost]

theorem sagLoop_all_fail (env : SagEnv) (taskId : String) (errOf : Nat → String)
    (hFail : ∀ i, (sagAttempt env i).1 = Except.error (errOf i)) :
    ∀ remaining attempt lastError, 1 ≤ remaining →
      (sagLoop env taskId attempt remaining lastError).1 =
        failureResult env.planSnapshot taskId
          (some (errOf (attempt + remaining - 1))) env.maxAttempts := by
  intro remaining
  induction remaining with
  | zero => intro attempt lastError h; omega
  | succ r ih =>
    intro attempt lastError _
    match r, ih with
    | 0, _ =>
      simp only [sagLoop, hFail attempt]
      norm_num
    | r' + 1, ih =>
      have harg : attempt + 1 + (r' + 1) - 1 = attempt + (r' + 1 + 1) - 1 := by omega
      have hrec := ih (attempt + 1) (some (errOf attempt)) (by omega)
      rw [harg] at hrec
      simp only [sagLoop, hFail attempt]
      simp only [sagLoop] at hrec
      rw [hrec]

theorem countFinalize_append (a b : List Event) :
    countFinalize (a ++ b) = countFinalize a + countFinalize b := by
  simp [countFinalize, List.filter_append]

theorem countFinalize_cons_ne (e : Event) (tr : List Event) (h : e ≠ Event.finalize) :
    countFinalize (e :: tr) = countFinalize tr := by
  simp [countFinalize, List.filter_cons, h]

theorem mem_preEvalLogs (rs : List EvalOutcome) (e : Event) (h : e ∈ preEvalLogs rs) :
    ∃ n, e = Event.logEv n := by
  unfold preEvalLogs at h
  split at h
  · simp at h
  · rcases List.mem_append.mp h with h1 | h2
    · exact ⟨"pre_eval", List.mem_singleton.mp h1⟩
    · split at h2
      · simp at h2
      · exact ⟨"pre_eval_failure", List.mem_singleton.mp h2⟩

theorem mem_postEvalLogs (rs : List EvalOutcome) (e : Event) (h : e ∈ postEvalLogs rs) :
    ∃ n, e = Event.logEv n := by
  unfold postEvalLogs at h
  split at h
  · simp at h
  · rcases List.mem_append.mp h with h1 | h2
    · exact ⟨"post_eval", List.mem_singleton.mp h1⟩
    · split at h2
      · simp at h2
      · exact ⟨"post_eval_failure", List.mem_singleton.mp h2⟩

theorem mem_modTrace (out : Dict) (i : Nat) (e : Event) (h : e ∈ modTrace out i) :
    e = Event.moderationRun i := by
  unfold modTrace at h
  split at h
  · exact List.mem_singleton.mp h
  · simp at h

theorem mem_backoffTrace (env : SagEnv) (attempt : Nat) (e : Event)
    (h : e ∈ backoffTrace env attempt) : e = Event.sleep env.backoffMs := by
  unfold backoffTrace at h
  split at h
  · exact List.mem_singleton.mp h
  · simp at h

theorem not_finalize_mem_preEvalLogs (rs : List EvalOutcome) :
    ∀ a ∈ preEvalLogs rs, ¬a = Event.finalize := by
  intro a ha
  obtain ⟨n, rfl⟩ := mem_preEvalLogs rs a ha
  simp

theorem not_finalize_mem_postEvalLogs (rs : List EvalOutcome) :
    ∀ a ∈ postEvalLogs rs, ¬a = Event.finalize := by
  intro a ha
  obtain ⟨n, rfl⟩ := mem_postEvalLogs rs a ha
  simp

theorem not_finalize_mem_modTrace (out : Dict) (i : Nat) :
    ∀ a ∈ modTrace out i, ¬a = Event.finalize := by
  intro a ha
  rw [mem_modTrace out i a ha]
  simp

theorem countFinalize_preEvalLogs (rs : List EvalOutcome) :
    countFinalize (preEvalLogs rs) = 0 := by
  simp only [countFinalize, List.length_eq_zero, List.filter_eq_nil_iff, decide_eq_true_eq]
  exact not_finalize_mem_preEvalLogs rs

theorem countFinalize_postEvalLogs (rs : List EvalOutcome) :
    countFinalize (postEvalLogs rs) = 0 := by
  simp only [countFinalize, List.length_eq_zero, List.filter_eq_nil_iff, decide_eq_true_eq]
  exact not_finalize_mem_postEvalLogs rs

theorem countFinalize_modTrace (out : Dict) (i : Nat) :
    countFinalize (modTrace out i) = 0 := by
  simp only [countFinalize, List.length_eq_zero, List.filter_eq_nil_iff, decide_eq_true_eq]
  exact not_finalize_mem_modTrace out i

theorem countFinalize_backoffTrace (env : SagEnv) (attempt : Nat) :
    countFinalize (backoffTrace env attempt) = 0 := by
  unfold backoffTrace
  split <;> simp [countFinalize]

theorem countFinalize_sagAttempt (env : SagEnv) (i : Nat) :
    countFinalize (sagAttempt env i).2 = 0 := by
  cases h1 : failClosedError "Pre-evaluation" (env.preEvals i) with
  | some msg =>
    simp only [sagAttempt, h1]
    rw [countFinalize_cons_ne _ _ (by simp), countFinalize_preEvalLogs]
  | none =>
    cases h2 : env.execute i with
    | error msg =>
      simp [sagAttempt, h1, h2, countFinalize]
      exact not_finalize_mem_preEvalLogs _
    | ok v =>
      obtain ⟨out, dur⟩ := v
      cases h3 : modOutcome env i out with
      | some msg =>
        simp [sagAttempt, h1, h2, h3, countFinalize]
        exact ⟨not_finalize_mem_preEvalLogs _, not_finalize_mem_modTrace _ _⟩
      | none =>
        cases h4 : failClosedError "Post-evaluation" (env.postEvals i out) with
        | some msg =>
          simp [sagAttempt, h1, h2, h3, h4, countFinalize]
          exact ⟨not_finalize_mem_preEvalLogs _, not_finalize_mem_modTrace _ _,
            not_finalize_mem_postEvalLogs _⟩
        | none =>
          simp [sagAttempt, h1, h2, h3, h4, countFinalize]
          exact ⟨not_finalize_mem_preEvalLogs _, not_finalize_mem_modTrace _ _,
            not_finalize_mem_postEvalLogs _⟩

theorem countFinalize_sagLoop (env : SagEnv) (taskId : String) :
    ∀ remaining attempt lastError,
      countFinalize (sagLoop env taskId attempt remaining lastError).2 = 1 := by
  intro remaining
  induction remaining with
  | zero =>
    intro attempt lastError
    simp [sagLoop, failureTrace, countFinalize]
  | succ r ih =>
    intro attempt lastError
    cases h : (sagAttempt env attempt).1 with
    | ok v =>
      obtain ⟨out, dur⟩ := v
      simp only [sagLoop, h, countFinalize_append, countFinalize_sagAttempt, successTrace]
      simp [countFinalize]
    | error msg =>
      simp only [sagLoop, h, countFinalize_append, countFinalize_sagAttempt,
        countFinalize_backoffTrace, ih]
      simp [countFinalize]

theorem countFinalize_restoreDet (st : DetState) :
    countFinalize (restoreDet st).2 = 0 := by
  unfold restoreDet
  cases st.prevKey <;> simp [countFinalize]

/-- The state `_prepare_execution` leaves behind when it succeeds. -/
def prepOkState (det : Bool) (st : DetState) : DetState :=
  if det && !st.flag then { flag := true, prevKey := some st.flag } else st

/-- The flag writes `_prepare_execution` performs when it succeeds. -/
def prepOkTrace (det : Bool) (st : DetState) : List Event :=
  if det && !st.flag then [Event.setDetFlag true] else []

theorem prepareExecution_ok (p : PrepEnv) (det : Bool) (st : DetState)
    (h : prepSucceeds p det) :
    prepareExecution p det st = (Except.ok (), prepOkState det st, prepOkTrace det st) := by
  obtain ⟨h1, h2, h3⟩ := h
  unfold prepareExecution prepOkState prepOkTrace
  rw [h1, h2]
  cases det with
  | false => simp
  | true =>
    rw [h3 rfl]
    cases hf : st.flag <;> simp

theorem countFinalize_prepOkTrace (det : Bool) (st : DetState) :
    countFinalize (prepOkTrace det st) = 0 := by
  unfold prepOkTrace
  split <;> simp [countFinalize]

theorem sagLoop_first_success (env : SagEnv) (taskId : String) (out : Dict) (dur r : Nat)
    (hOk : (sagAttempt env 0).1 = Except.ok (out, dur)) :
    (sagLoop env taskId 0 (r + 1) Option.none).1 =
      { task_id := taskId, status := "success", output := out,
        metrics := buildSuccessMetrics env.planSnapshot dur 0, error := Option.none } := by
  simp only [sagLoop, hOk]

theorem sagLoop_result_invariant (env : SagEnv) (taskId : String) :
    ∀ remaining attempt lastError,
      ((sagLoop env taskId attempt remaining lastError).1.status = "failure" →
        (sagLoop env taskId attempt remaining lastError).1.output = [] ∧
        (sagLoop env taskId attempt remaining lastError).1.error.isSome) ∧
      ((sagLoop env taskId attempt remaining lastError).1.status = "success" →
        (sagLoop env taskId attempt remaining lastError).1.error = Option.none) := by
  intro remaining
  induction remaining with
  | zero =>
    intro attempt lastError
    refine ⟨fun _ => ⟨rfl, ?_⟩, fun h => ?_⟩
    · simp [sagLoop, failureResult]
    · simp [sagLoop, failureResult] at h
  | succ r ih =>
    intro attempt lastError
    cases h : (sagAttempt env attempt).1 with
    | ok v =>
      obtain ⟨out, dur⟩ := v
      simp only [sagLoop, h]
      constructor
      · intro hst
        simp at hst
      · intro _
        trivial
    | error msg =>
      simp only [sagLoop, h]
      exact ih (attempt + 1) (some msg)

theorem sagLoop_preFail_noExecute (env : SagEnv) (taskId : String)
    (hPre : ∀ i, (failClosedError "Pre-evaluation" (env.preEvals i)).isSome) :
    ∀ remaining attempt lastError j,
      Event.executeBody j ∉ (sagLoop env taskId attempt remaining lastError).2 := by
  intro remaining
  induction remaining with
  | zero =>
    intro attempt lastError j
    simp [sagLoop, failureTrace]
  | succ r ih =>
    intro attempt lastError j
    obtain ⟨msg, hmsg⟩ := Option.isSome_iff_exists.mp (hPre attempt)
    have hatt := sagAttempt_preFail env attempt msg hmsg
    simp only [sagLoop, hatt]
    intro hmem
    simp only [List.cons_append, List.append_assoc, List.mem_cons, List.mem_append] at hmem
    rcases hmem with h | h | h | h | h
    · exact absurd h (by simp)
    · obtain ⟨n, hn⟩ := mem_preEvalLogs _ _ h
      exact absurd hn (by simp)
    · exact absurd h (by simp)
    · simp at h
    · rcases h with h | h
      · exact absurd (mem_backoffTrace _ _ _ h) (by simp)
      · exact ih (attempt + 1) (some msg) j h

theorem sagLoop_preFail_preRun (env : SagEnv) (taskId : String)
    (hPre : ∀ i, (failClosedError "Pre-evaluation" (env.preEvals i)).isSome) :
    ∀ remaining attempt lastError j, attempt ≤ j → j < attempt + remaining →
      Event.preEvalRun j ∈ (sagLoop env taskId attempt remaining lastError).2 := by
  intro remaining
  induction remaining with
  | zero =>
    intro attempt lastError j h1 h2
    omega
  | succ r ih =>
    intro attempt lastError j h1 h2
    obtain ⟨msg, hmsg⟩ := Option.isSome_iff_exists.mp (hPre attempt)
    have hatt := sagAttempt_preFail env attempt msg hmsg
    simp only [sagLoop, hatt]
    by_cases hj : j = attempt
    · subst hj
      simp
    · have := ih (attempt + 1) (some msg) j (by omega) (by omega)
      simp [List.mem_append, List.mem_cons, this]

end Magsag

namespace Magsag

theorem invokeSagModel_ok (env : SagEnv) (d : DelegationM) (flag : Bool)
    (h : prepSucceeds env.prep d.deterministic) :
    invokeSagModel env d flag =
      { runId := "sag-" ++ env.freshId
        result := Except.ok (sagLoop env d.task_id 0 env.maxAttempts Option.none).1
        trace := prepOkTrace d.deterministic { flag := flag, prevKey := Option.none }
          ++ Event.logEv "start" :: (sagLoop env d.task_id 0 env.maxAttempts Option.none).2
          ++ (restoreDet (prepOkState d.deterministic { flag := flag, prevKey := Option.none })).2
        finalDetFlag :=
          (restoreDet (prepOkState d.deterministic { flag := flag, prevKey := Option.none })).1.flag } := by
  simp only [invokeSagModel, prepareExecution_ok env.prep d.deterministic _ h]

theorem mem_prepOkTrace (det : Bool) (st : DetState) (e : Event)
    (h : e ∈ prepOkTrace det st) : e = Event.setDetFlag true := by
  unfold prepOkTrace at h
  split at h
  · exact List.mem_singleton.mp h
  · simp at h

theorem mem_restoreDetTrace (st : DetState) (e : Event)
    (h : e ∈ (restoreDet st).2) : ∃ b, e = Event.setDetFlag b := by
  unfold restoreDet at h
  cases hk : st.prevKey with
  | some prev =>
    rw [hk] at h
    exact ⟨prev, List.mem_singleton.mp h⟩
  | none =>
    rw [hk] at h
    simp at h

theorem restoreDet_prep_false (p : PrepEnv) :
    (restoreDet (prepareExecution p true { flag := false, prevKey := Option.none }).2.1).1.flag
      = false := by
  unfold prepareExecution restoreDet
  rcases p with ⟨l, a, pl⟩
  cases l <;> cases a <;> cases pl <;> simp

end Magsag

namespace Magsag

/-- Delegation against a fail-closed pre-evaluator with a two-attempt
retry policy (exercises the PRE_EVAL abort claim). -/
def envC1 : SagEnv :=
  { prep := ⟨false, false, false⟩
    maxAttempts := 2
    backoffMs := 0
    preEvals := fun _ => [⟨"schema-check", false, false⟩]
    execute := fun _ => Except.ok ([], 5)
    checkModelOutput := fun _ _ => Option.none
    postEvals := fun _ _ => []
    planSnapshot := []
    freshId := "0a1b2c3d" }

/-- Delegation used with `envC1`. -/
def dC1 : DelegationM := ⟨"t1", "comp-advisor", Option.none, false⟩

/-- C1 counterexample: with `max_attempts = 2` and a pre-evaluator that
always fails fail-closed, the attempt loop runs the pre-evaluations a
second time (`preEvalRun 1` is in the trace) and the delegation ends in
a failure `Result` with `metrics["attempts"] = 2` — the delegation is
retried, not aborted on the first attempt. -/
theorem c1_counterexample_pre_eval_retried :
    Event.preEvalRun 1 ∈ (invokeSagModel envC1 dC1 false).trace ∧
    (invokeSagModel envC1 dC1 false).result.toOption.map ResultR.status = some "failure" ∧
    (invokeSagModel envC1 dC1 false).result.toOption.map
      (fun r => dictGet r.metrics "attempts") = some (some (Value.num 2)) := by
  refine ⟨?_, rfl, rfl⟩
  decide

/-- C1 (amended): a fail-closed pre-evaluation failure raises
`RuntimeError` for its attempt, but the loop's `except Exception`
catches it like any other attempt failure: pre-evaluations are re-run
on every attempt up to `max_attempts`, the agent body is never
executed, and the delegation ends in a failure `Result` with
`metrics["attempts"] == max_attempts` rather than aborting after the
first attempt. -/
theorem c1_amended_pre_eval_fail_closed_retried
    (env : SagEnv) (d : DelegationM) (flag : Bool)
    (hPrep : prepSucceeds env.prep d.deterministic)
    (hMax : 1 ≤ env.maxAttempts)
    (hPre : ∀ i, (failClosedError "Pre-evaluation" (env.preEvals i)).isSome) :
    ∃ r, (invokeSagModel env d flag).result = Except.ok r ∧
      r.status = "failure" ∧
      dictGet r.metrics "attempts" = some (Value.num env.maxAttempts) ∧
      (∀ j, Event.executeBody j ∉ (invokeSagModel env d flag).trace) ∧
      (∀ j, j < env.maxAttempts →
        Event.preEvalRun j ∈ (invokeSagModel env d flag).trace) := by
  have hFail : ∀ i, (sagAttempt env i).1 =
      Except.error ((failClosedError "Pre-evaluation" (env.preEvals i)).getD "") := by
    intro i
    obtain ⟨msg, hmsg⟩ := Option.isSome_iff_exists.mp (hPre i)
    rw [sagAttempt_preFail env i msg hmsg, hmsg]
    rfl
  have hres := sagLoop_all_fail env d.task_id _ hFail env.maxAttempts 0 Option.none hMax
  have hz : 0 + env.maxAttempts - 1 = env.maxAttempts - 1 := by omega
  rw [hz] at hres
  have hunf := invokeSagModel_ok env d flag hPrep
  refine ⟨(sagLoop env d.task_id 0 env.maxAttempts Option.none).1, ?_, ?_, ?_, ?_, ?_⟩
  · rw [hunf]
  · rw [hres]
    rfl
  · rw [hres]
    exact failureResult_attempts _ _ _ _
  · intro j
    rw [hunf]
    intro hmem
    rcases List.mem_append.mp hmem with h | h
    · rcases List.mem_append.mp h with h | h
      · exact absurd (mem_prepOkTrace _ _ _ h) (by simp)
      · rcases List.mem_cons.mp h with h | h
        · exact absurd h (by simp)
        · exact sagLoop_preFail_noExecute env d.task_id hPre env.maxAttempts 0 Option.none j h
    · obtain ⟨b, hb⟩ := mem_restoreDetTrace _ _ h
      exact absurd hb (by simp)
  · intro j hj
    rw [hunf]
    have := sagLoop_preFail_preRun env d.task_id hPre env.maxAttempts 0 Option.none j
      (by omega) (by omega)
    simp [List.mem_append, List.mem_cons, this]

/-- C2: pre-evaluations pass but the agent body raises on every
attempt; used as the C2 witness environment. -/
def envC2 : SagEnv :=
  { prep := ⟨false, false, false⟩
    maxAttempts := 3
    backoffMs := 10
    preEvals := fun _ => []
    execute := fun _ => Except.error "ValueError: boom"
    checkModelOutput := fun _ _ => Option.none
    postEvals := fun _ _ => []
    planSnapshot := []
    freshId := "11223344" }

/-- Delegation used with `envC2` / `envC3`. -/
def dC2 : DelegationM := ⟨"t1", "comp-advisor", Option.none, false⟩

/-- C2: when the agent body raises on every attempt, `invoke_sag`
returns (does not raise) a failure `Result` whose
`metrics["attempts"]` equals the retry policy's `max_attempts` and
whose `error` is the message of the last exception raised. -/
theorem c2_exhaustion_returns_failure_result
    (env : SagEnv) (d : DelegationM) (flag : Bool) (errMsg : Nat → String)
    (hPrep : prepSucceeds env.prep d.deterministic)
    (hMax : 1 ≤ env.maxAttempts)
    (hPre : ∀ i, failClosedError "Pre-evaluation" (env.preEvals i) = Option.none)
    (hExec : ∀ i, env.execute i = Except.error (errMsg i)) :
    ∃ r, (invokeSagModel env d flag).result = Except.ok r ∧
      r.status = "failure" ∧
      dictGet r.metrics "attempts" = some (Value.num env.maxAttempts) ∧
      r.error = some (errMsg (env.maxAttempts - 1)) := by
  have hFail : ∀ i, (sagAttempt env i).1 = Except.error (errMsg i) :=
    fun i => sagAttempt_execFail env i (errMsg i) (hPre i) (hExec i)
  have hres := sagLoop_all_fail env d.task_id errMsg hFail env.maxAttempts 0 Option.none hMax
  have hz : 0 + env.maxAttempts - 1 = env.maxAttempts - 1 := by omega
  rw [hz] at hres
  rw [invokeSagModel_ok env d flag hPrep]
  refine ⟨_, rfl, ?_, ?_, ?_⟩
  · rw [hres]
    rfl
  · rw [hres]
    exact failureResult_attempts _ _ _ _
  · rw [hres]
    rfl

/-- C2 witness: the theorem applied to `envC2`, where every attempt
raises `ValueError: boom` and `max_attempts = 3`. -/
theorem c2_exhaustion_returns_failure_result_witness :
    ∃ r, (invokeSagModel envC2 dC2 false).result = Except.ok r ∧
      r.status = "failure" ∧
      dictGet r.metrics "attempts" = some (Value.num envC2.maxAttempts) ∧
      r.error = some "ValueError: boom" :=
  c2_exhaustion_returns_failure_result envC2 dC2 false (fun _ => "ValueError: boom")
    (by decide) (by decide) (fun _ => rfl) (fun _ => rfl)

end Magsag

namespace Magsag

/-- C3: when pre-evaluations pass and the body, moderation and
post-evaluations succeed on the first attempt, the invocation returns a
success `Result` carrying the body's output and
`metrics["attempts"] == 1`. -/
theorem c3_first_attempt_success
    (env : SagEnv) (d : DelegationM) (flag : Bool) (out : Dict) (dur : Nat)
    (hPrep : prepSucceeds env.prep d.deterministic)
    (hMax : 1 ≤ env.maxAttempts)
    (hPre : failClosedError "Pre-evaluation" (env.preEvals 0) = Option.none)
    (hExec : env.execute 0 = Except.ok (out, dur))
    (hMod : modOutcome env 0 out = Option.none)
    (hPost : failClosedError "Post-evaluation" (env.postEvals 0 out) = Option.none) :
    ∃ r, (invokeSagModel env d flag).result = Except.ok r ∧
      r.status = "success" ∧ r.output = out ∧
      dictGet r.metrics "attempts" = some (Value.num 1) := by
  obtain ⟨s, hs⟩ : ∃ s, env.maxAttempts = s + 1 := ⟨env.maxAttempts - 1, by omega⟩
  have hOk := sagAttempt_success env 0 out dur hPre hExec hMod hPost
  have hres := sagLoop_first_success env d.task_id out dur s hOk
  rw [invokeSagModel_ok env d flag hPrep, hs]
  refine ⟨_, rfl, ?_, ?_, ?_⟩
  · rw [hres]
  · rw [hres]
  · rw [hres]
    exact successMetrics_attempts _ _ _

/-- Successful single-attempt environment (C3 witness, also used for
C10's witness): the body returns an offer dict with duration 7ms. -/
def envC3 : SagEnv :=
  { prep := ⟨false, false, false⟩
    maxAttempts := 1
    backoffMs := 0
    preEvals := fun _ => [⟨"schema-check", true, false⟩]
    execute := fun _ => Except.ok ([("offer", Value.dict [("role", Value.str "Engineer")])], 7)
    checkModelOutput := fun _ _ => Option.none
    postEvals := fun _ _ => []
    planSnapshot := []
    freshId := "55667788" }

/-- C3 witness: the theorem applied to `envC3`. -/
theorem c3_first_attempt_success_witness :
    ∃ r, (invokeSagModel envC3 dC2 false).result = Except.ok r ∧
      r.status = "success" ∧
      r.output = [("offer", Value.dict [("role", Value.str "Engineer")])] ∧
      dictGet r.metrics "attempts" = some (Value.num 1) :=
  c3_first_attempt_success envC3 dC2 false
    [("offer", Value.dict [("role", Value.str "Engineer")])] 7
    (by decide) (by decide) rfl rfl rfl rfl

/-- Count of `finalize` calls in `magErrorExit`'s trace (context
created): one more than in the prefix trace. -/
theorem countFinalize_magErrorExit (runId msg : String) (preTr : List Event) (st : DetState) :
    countFinalize (magErrorExit runId msg preTr st true).trace = countFinalize preTr + 1 := by
  show countFinalize ((preTr ++
    [Event.logEv "error", Event.recordCost "mag", Event.finalize]) ++ (restoreDet st).2) =
    countFinalize preTr + 1
  rw [countFinalize_append, countFinalize_append, countFinalize_restoreDet]
  rfl

/-- C4: whenever `_prepare_execution` creates an `_ExecutionContext`
(and so a bound `ObservabilityLogger`), `invoke_mag` and
`invoke_sag` / `invoke_sag_async` call `finalize()` exactly once on
every terminating path — success, durable resume, retry exhaustion,
and exception. -/
theorem c4_finalize_called_exactly_once :
    (∀ (env : MagEnv) (ctxRunId : Option String) (det flag : Bool),
      prepSucceeds env.prep det →
      countFinalize (invokeMagModel env ctxRunId det flag).trace = 1) ∧
    (∀ (env : SagEnv) (d : DelegationM) (flag : Bool),
      prepSucceeds env.prep d.deterministic →
      countFinalize (invokeSagModel env d flag).trace = 1) := by
  constructor
  · intro env ctxRunId det flag h
    simp only [invokeMagModel, prepareExecution_ok env.prep det _ h]
    split
    · simp only [countFinalize_append, countFinalize_prepOkTrace, countFinalize_restoreDet]
      decide
    · split
      · rw [countFinalize_magErrorExit]
        simp only [countFinalize_append, countFinalize_prepOkTrace]
        decide
      · split
        · rw [countFinalize_magErrorExit]
          simp only [countFinalize_append, countFinalize_prepOkTrace]
          decide
        · split
          · rw [countFinalize_magErrorExit]
            simp only [countFinalize_append, countFinalize_prepOkTrace,
              countFinalize_modTrace]
            decide
          · split
            · rw [countFinalize_magErrorExit]
              simp only [countFinalize_append, countFinalize_prepOkTrace,
                countFinalize_modTrace]
              decide
            · simp only [countFinalize_append, countFinalize_prepOkTrace,
                countFinalize_modTrace, countFinalize_restoreDet]
              decide
  · intro env d flag h
    rw [invokeSagModel_ok env d flag h]
    simp only [countFinalize_append, countFinalize_prepOkTrace, countFinalize_restoreDet]
    rw [countFinalize_cons_ne _ _ (by simp), countFinalize_sagLoop]

/-- Durable-resume MAG environment (C4 and C7 witnesses). -/
def envMagW : MagEnv :=
  { prep := ⟨false, false, false⟩
    durable := true
    resume := ResumeBehavior.stateWithResult [("result_key", Value.str "stored")]
    ingress := Option.none
    executeMag := Except.ok ([("out", Value.str "fresh")], 3)
    checkModelOutput := fun _ => Option.none
    egress := fun _ => Option.none
    checkpointFails := false
    freshId := "99aabbcc" }

/-- C4 witness: both conjuncts applied at concrete environments. -/
theorem c4_finalize_called_exactly_once_witness :
    countFinalize (invokeMagModel envMagW (some "run-1") false false).trace = 1 ∧
    countFinalize (invokeSagModel envC3 dC2 false).trace = 1 :=
  ⟨c4_finalize_called_exactly_once.1 envMagW (some "run-1") false false (by decide),
   c4_finalize_called_exactly_once.2 envC3 dC2 false (by decide)⟩

/-- C5: a call with `context["deterministic"] == true` that starts with
the process-wide deterministic flag `false` leaves the flag `false`
when `invoke_mag` returns, on every exit path — normal return,
durable-resume return, or propagated exception (all collaborator
behaviours are quantified). -/
theorem c5_deterministic_flag_restored (env : MagEnv) (ctxRunId : Option String) :
    (invokeMagModel env ctxRunId true false).finalDetFlag = false := by
  unfold invokeMagModel
  rcases hp : prepareExecution env.prep true { flag := false, prevKey := Option.none }
    with ⟨res, st, tr⟩
  have hst : (restoreDet st).1.flag = false := by
    have h := restoreDet_prep_false env.prep
    rw [hp] at h
    exact h
  cases res with
  | error msg => simpa [magErrorExit] using hst
  | ok u =>
    dsimp only
    split
    · exact hst
    · split
      · simpa [magErrorExit] using hst
      · split
        · simpa [magErrorExit] using hst
        · split
          · simpa [magErrorExit] using hst
          · split
            · simpa [magErrorExit] using hst
            · exact hst

end Magsag

namespace Magsag

/-- C1 amended witness: the amended theorem applied to `envC1`
(fail-closed pre-evaluator, two attempts). -/
theorem c1_amended_pre_eval_fail_closed_retried_witness :
    ∃ r, (invokeSagModel envC1 dC1 false).result = Except.ok r ∧
      r.status = "failure" ∧
      dictGet r.metrics "attempts" = some (Value.num envC1.maxAttempts) ∧
      (∀ j, Event.executeBody j ∉ (invokeSagModel envC1 dC1 false).trace) ∧
      (∀ j, j < envC1.maxAttempts →
        Event.preEvalRun j ∈ (invokeSagModel envC1 dC1 false).trace) :=
  c1_amended_pre_eval_fail_closed_retried envC1 dC1 false (by decide) (by decide)
    (fun _ => rfl)

/-- C6: the concurrency bridge.  From plain synchronous context the
coroutine's outcome (result or exception) is the caller's outcome.
From inside a running event loop, however, a coroutine that raises a
`RuntimeError` has its re-raised error caught by the bridge's own
`except RuntimeError` clause, whose fallback then calls `asyncio.run`
from the loop-running thread: the caller receives
`RuntimeError("asyncio.run() cannot be called from a running event
loop")` in place of the coroutine's own error.  This contradicts the
function's documented contract ("Raises: Any exception raised by the
coroutine") at the concrete failing input modelled here; non-
`RuntimeError` exceptions and normal results propagate correctly. -/
theorem c6_bridge_substitutes_runtime_error :
    runAsyncSafely false (Except.error (PyExc.runtimeError "boom"))
      = Except.error (PyExc.runtimeError "boom") ∧
    runAsyncSafely true (Except.error (PyExc.valueError "boom"))
      = Except.error (PyExc.valueError "boom") ∧
    runAsyncSafely true (Except.ok [("k", Value.str "v")])
      = Except.ok [("k", Value.str "v")] ∧
    runAsyncSafely true (Except.error (PyExc.runtimeError "boom"))
      = Except.error (PyExc.runtimeError
          "asyncio.run() cannot be called from a running event loop") ∧
    runAsyncSafely true (Except.error (PyExc.runtimeError "boom"))
      ≠ Except.error (PyExc.runtimeError "boom") := by
  refine ⟨rfl, rfl, rfl, rfl, ?_⟩
  intro h
  simp [runAsyncSafely, PyExc.isRuntimeError] at h

/-- Unfolding of `invoke_mag` on the durable-resume short-circuit. -/
theorem invokeMagModel_resume (env : MagEnv) (ctxRunId : Option String)
    (det flag : Bool) (r : Dict)
    (hPrep : prepSucceeds env.prep det)
    (hDur : env.durable = true)
    (hRes : env.resume = ResumeBehavior.stateWithResult r) :
    invokeMagModel env ctxRunId det flag =
      { runId := match ctxRunId with
          | some s => if s = "" then "mag-" ++ env.freshId else s
          | Option.none => "mag-" ++ env.freshId
        result := Except.ok r
        trace := prepOkTrace det { flag := flag, prevKey := Option.none }
          ++ [Event.logEv "resume", Event.finalize]
          ++ (restoreDet (prepOkState det { flag := flag, prevKey := Option.none })).2
        finalDetFlag :=
          (restoreDet (prepOkState det { flag := flag, prevKey := Option.none })).1.flag } := by
  simp only [invokeMagModel, prepareExecution_ok env.prep det _ hPrep, hDur, hRes, if_true]

/-- C7: with durable mode enabled and `resume(run_id)` returning a
state dict containing a `"result"` key, `invoke_mag` returns the stored
result, never executes the registry entrypoint, logs a `"resume"` event
and finalizes the logger exactly once. -/
theorem c7_durable_resume_short_circuits
    (env : MagEnv) (ctxRunId : Option String) (det flag : Bool) (r : Dict)
    (hPrep : prepSucceeds env.prep det)
    (hDur : env.durable = true)
    (hRes : env.resume = ResumeBehavior.stateWithResult r) :
    (invokeMagModel env ctxRunId det flag).result = Except.ok r ∧
    Event.logEv "resume" ∈ (invokeMagModel env ctxRunId det flag).trace ∧
    countFinalize (invokeMagModel env ctxRunId det flag).trace = 1 ∧
    (∀ j, Event.executeBody j ∉ (invokeMagModel env ctxRunId det flag).trace) := by
  rw [invokeMagModel_resume env ctxRunId det flag r hPrep hDur hRes]
  refine ⟨rfl, ?_, ?_, ?_⟩
  · simp
  · simp only [countFinalize_append, countFinalize_prepOkTrace, countFinalize_restoreDet]
    decide
  · intro j hmem
    rcases List.mem_append.mp hmem with h | h
    · rcases List.mem_append.mp h with h | h
      · exact absurd (mem_prepOkTrace _ _ _ h) (by simp)
      · rcases List.mem_cons.mp h with h | h
        · exact absurd h (by simp)
        · exact absurd (List.mem_singleton.mp h) (by simp)
    · obtain ⟨b, hb⟩ := mem_restoreDetTrace _ _ h
      exact absurd hb (by simp)

/-- C7 witness: the theorem applied to `envMagW`, whose durable resume
yields a stored result. -/
theorem c7_durable_resume_short_circuits_witness :
    (invokeMagModel envMagW (some "run-1") false false).result
      = Except.ok [("result_key", Value.str "stored")] ∧
    Event.logEv "resume" ∈ (invokeMagModel envMagW (some "run-1") false false).trace ∧
    countFinalize (invokeMagModel envMagW (some "run-1") false false).trace = 1 ∧
    (∀ j, Event.executeBody j ∉ (invokeMagModel envMagW (some "run-1") false false).trace) :=
  c7_durable_resume_short_circuits envMagW (some "run-1") false false
    [("result_key", Value.str "stored")] (by decide) rfl rfl

/-- C8: a skill whose resolved entrypoint is not an asynchronous
callable is rejected by `invoke_async` — a `ValueError` (or an earlier
MCP configuration error) is raised and the entrypoint is never
invoked. -/
theorem c8_sync_entrypoint_rejected (env : SkillEnv)
    (h : isAsyncCallable env.entrypoint = false) :
    (∃ msg, (invokeSkillAsync env).result = Except.error msg) ∧
    (invokeSkillAsync env).invoked = false := by
  unfold invokeSkillAsync
  dsimp only
  split_ifs with h1 h2 h3 h4
  · exact ⟨⟨_, rfl⟩, rfl⟩
  · exact ⟨⟨_, rfl⟩, rfl⟩
  · exact ⟨⟨_, rfl⟩, rfl⟩
  · exact ⟨⟨_, rfl⟩, rfl⟩
  · rw [h] at h4
    simp at h4

/-- C8 witness: a plain synchronous `def` entrypoint without MCP. -/
def envSkillSync : SkillEnv :=
  { entrypoint := PyCallable.syncFn
    hasMcpParam := false
    hasMcpPermission := false
    mcpEnabled := false
    mcpStartOk := true
    runtimeOk := true
    body := Except.ok [("ok", Value.bool true)] }

/-- C8 witness: the theorem applied to a synchronous entrypoint. -/
theorem c8_sync_entrypoint_rejected_witness :
    (∃ msg, (invokeSkillAsync envSkillSync).result = Except.error msg) ∧
    (invokeSkillAsync envSkillSync).invoked = false :=
  c8_sync_entrypoint_rejected envSkillSync rfl

end Magsag

namespace Magsag

/-- SAG environment whose delegation context carries a caller
`run_id` (C9 counterexample). -/
def envC9 : SagEnv :=
  { prep := ⟨false, false, false⟩
    maxAttempts := 1
    backoffMs := 0
    preEvals := fun _ => []
    execute := fun _ => Except.ok ([], 1)
    checkModelOutput := fun _ _ => Option.none
    postEvals := fun _ _ => []
    planSnapshot := []
    freshId := "abc123ef" }

/-- Delegation whose context carries `run_id = "caller-run"`. -/
def dC9 : DelegationM := ⟨"t9", "analysis-sag", some "caller-run", false⟩

/-- C9 counterexample: a delegation whose context already carries
`run_id = "caller-run"` is nevertheless invoked under the freshly
generated id `"sag-abc123ef"` — `invoke_sag` / `invoke_sag_async`
(lines 1774 / 1655) never read the context's `run_id`, refuting the
claim that the caller's run_id is reused for SAG invocations. -/
theorem c9_counterexample_sag_ignores_context_run_id :
    dC9.ctxRunId = some "caller-run" ∧
    (invokeSagModel envC9 dC9 false).runId = "sag-abc123ef" ∧
    (invokeSagModel envC9 dC9 false).runId ≠ "caller-run" := by
  refine ⟨rfl, rfl, ?_⟩
  decide

/-- C9 (amended): `invoke_mag` reuses a truthy `run_id` from the
caller's context and generates `"mag-" ++ uuid` when it is absent or
empty; `invoke_sag` and `invoke_sag_async` always generate a fresh
`"sag-" ++ uuid` run id and ignore any `run_id` in the delegation's
context. -/
theorem c9_amended_run_id_reuse :
    (∀ (env : MagEnv) (r : String) (det flag : Bool), r ≠ "" →
      (invokeMagModel env (some r) det flag).runId = r) ∧
    (∀ (env : MagEnv) (det flag : Bool),
      (invokeMagModel env Option.none det flag).runId = "mag-" ++ env.freshId) ∧
    (∀ (env : SagEnv) (d : DelegationM) (flag : Bool),
      (invokeSagModel env d flag).runId = "sag-" ++ env.freshId) := by
  refine ⟨?_, ?_, ?_⟩
  · intro env r det flag hr
    unfold invokeMagModel
    rcases hp : prepareExecution env.prep det { flag := flag, prevKey := Option.none }
      with ⟨res, st, tr⟩
    cases res with
    | error msg => simp [magErrorExit, hr]
    | ok u =>
      dsimp only
      rw [if_neg hr]
      split
      · rfl
      · split
        · simp [magErrorExit]
        · split
          · simp [magErrorExit]
          · split
            · simp [magErrorExit]
            · split
              · simp [magErrorExit]
              · rfl
  · intro env det flag
    unfold invokeMagModel
    rcases hp : prepareExecution env.prep det { flag := flag, prevKey := Option.none }
      with ⟨res, st, tr⟩
    cases res with
    | error msg => simp [magErrorExit]
    | ok u =>
      dsimp only
      split
      · rfl
      · split
        · simp [magErrorExit]
        · split
          · simp [magErrorExit]
          · split
            · simp [magErrorExit]
            · split
              · simp [magErrorExit]
              · rfl
  · intro env d flag
    unfold invokeSagModel
    rcases hp : prepareExecution env.prep d.deterministic { flag := flag, prevKey := Option.none }
      with ⟨res, st, tr⟩
    cases res <;> rfl

/-- C9 amended witness: all three conjuncts at concrete inputs. -/
theorem c9_amended_run_id_reuse_witness :
    (invokeMagModel envMagW (some "run-1") false false).runId = "run-1" ∧
    (invokeMagModel envMagW Option.none false false).runId = "mag-" ++ envMagW.freshId ∧
    (invokeSagModel envC9 dC9 false).runId = "sag-" ++ envC9.freshId :=
  ⟨c9_amended_run_id_reuse.1 envMagW "run-1" false false (by decide),
   c9_amended_run_id_reuse.2.1 envMagW false false,
   c9_amended_run_id_reuse.2.2 envC9 dC9 false⟩

/-- C10: every `Result` returned by `invoke_sag` / `invoke_sag_async`
with `status == "failure"` has the empty output map and a non-`None`
error string; a `Result` with `status == "success"` has `error ==
None`. -/
theorem c10_result_status_shape (env : SagEnv) (d : DelegationM) (flag : Bool) (r : ResultR)
    (h : (invokeSagModel env d flag).result = Except.ok r) :
    (r.status = "failure" → r.output = [] ∧ r.error.isSome) ∧
    (r.status = "success" → r.error = Option.none) := by
  unfold invokeSagModel at h
  rcases hp : prepareExecution env.prep d.deterministic { flag := flag, prevKey := Option.none }
    with ⟨res, st, tr⟩
  rw [hp] at h
  cases res with
  | error msg => simp at h
  | ok u =>
    have hr : (sagLoop env d.task_id 0 env.maxAttempts Option.none).1 = r := by
      simpa using h
    rw [← hr]
    exact sagLoop_result_invariant env d.task_id env.maxAttempts 0 Option.none

/-- The concrete success `Result` produced by `envC3` (C10 witness). -/
def rC10 : ResultR :=
  { task_id := "t1"
    status := "success"
    output := [("offer", Value.dict [("role", Value.str "Engineer")])]
    metrics := [("duration_ms", Value.num 7), ("attempts", Value.num 1),
      ("cost_usd", Value.num 0), ("tokens", Value.num 0)]
    error := Option.none }

/-- C10 witness: the theorem applied to the concrete invocation of
`envC3`, whose returned `Result` is `rC10`. -/
theorem c10_result_status_shape_witness :
    (rC10.status = "failure" → rC10.output = [] ∧ rC10.error.isSome) ∧
    (rC10.status = "success" → rC10.error = Option.none) :=
  c10_result_status_shape envC3 dC2 false rC10 rfl

end Magsag
